import Mathlib

set_option maxRecDepth 16000

/-!
Verification of the itinerary-planning core of the WeekendWish repository
(`src/planner.py`). The planner scores user-selected places, sorts them by
score, and greedily accepts them into a day itinerary under a budget gate and
a 480-minute time gate.

Numbers are modelled as exact rationals (`ℚ`). Python dictionaries for places
are modelled as a structure whose optional keys are `Option` fields; a
`dict[key]` access on a missing key is modelled as `Except.error`, mirroring
Python's `KeyError`.
-/

namespace WeekendWish

/-- A place record as handed to the planner (a Python dict). Optional keys
(`categories`, `photo_url`, `popularity`, `price_tier`) are `Option` fields;
`lat`/`lon` are `Option` because a malformed record may lack them. -/
structure Place where
  name : String
  categories : Option (List String)
  photo_url : Option String
  lat : Option ℚ
  lon : Option ℚ
  popularity : Option ℚ
  price_tier : Option ℤ
deriving Repr, DecidableEq

/-- One accepted stop of the returned itinerary
(`planner.py` lines 133-142). -/
structure Stop where
  name : String
  categories : List String
  photo_url : Option String
  cost : ℚ
  travel_time : ℚ
  duration : ℚ
  lat : ℚ
  lon : ℚ
deriving Repr, DecidableEq

/-- Modelled from the spec: `distance_km` in `planner.py` delegates to
`geopy.distance.geodesic(...).km`, an external library whose implementation is
not part of this repository. The spec's contract (§4.1) states only that it is
a distance between two latitude/longitude coordinates that is non-negative,
symmetric, and zero iff the two coordinates are equal; it is modelled here as
a computable metric with exactly those properties. -/
def geodesic_km (lat1 lon1 lat2 lon2 : ℚ) : ℚ :=
  |lat1 - lat2| + |lon1 - lon2|

/-- The function `distance_km` (`planner.py` lines 22-23). -/
def distance_km (lat1 lon1 lat2 lon2 : ℚ) : ℚ :=
  geodesic_km lat1 lon1 lat2 lon2

/-- The function `travel_time_min` with an explicit `speed` argument
(`planner.py` lines 26-29). -/
def travel_time_min_at (lat1 lon1 lat2 lon2 speed : ℚ) : ℚ :=
  distance_km lat1 lon1 lat2 lon2 / speed * 60

/-- The function `travel_time_min` called with the default `speed=20`, as every call site
in `planner.py` does. -/
def travel_time_min (lat1 lon1 lat2 lon2 : ℚ) : ℚ :=
  travel_time_min_at lat1 lon1 lat2 lon2 20

/-- Python's built-in `max` on two rationals, kept kernel-reducible. -/
def pymax (a b : ℚ) : ℚ :=
  if a < b then b else a

/-- The price-tier → approximate-INR-cost dict lookup with default 400
(`planner.py` lines 49-54). -/
def approx_cost_of (price_tier : ℤ) : ℚ :=
  if price_tier = 1 then 200
  else if price_tier = 2 then 400
  else if price_tier = 3 then 800
  else if price_tier = 4 then 1200
  else 400

/-- The function `compute_score` (`planner.py` lines 35-68): returns
`(score, approx_cost)`. -/
def compute_score (place : Place) (budget_per_person travel_min : ℚ) : ℚ × ℚ :=
  let popularity := place.popularity.getD 0.6
  let price_tier := place.price_tier.getD 2
  let approx_cost := approx_cost_of price_tier
  let cost_factor := pymax 0 ((budget_per_person - approx_cost) / pymax 1 budget_per_person)
  let travel_penalty := travel_min / 30
  (0.5 * popularity + 0.3 * cost_factor - 0.2 * travel_penalty, approx_cost)

/-- Case-insensitive rendering of a category label, as a character list
(Python's `c.lower()`), so that substring matching stays structurally
recursive. -/
def lowerStr (s : String) : List Char :=
  s.data.map Char.toLower

/-- Whether `pat` occurs as a contiguous run inside `s`. -/
def containsSub (pat : List Char) (s : List Char) : Bool :=
  match s with
  | [] => pat.isEmpty
  | _ :: rest => pat.isPrefixOf s || containsSub pat rest

/-- Python's `"pat" in c` substring test on lowered category text. -/
def subIn (pat : String) (c : List Char) : Bool :=
  containsSub pat.data c

/-- The function `estimate_visit_duration` (`planner.py` lines 155-171): case-insensitive
substring matching over the place's categories (missing key defaults to the
empty list), fixed priority order, default 45. -/
def estimate_visit_duration (place : Place) : ℚ :=
  let cats := (place.categories.getD []).map lowerStr
  if cats.any (fun c => subIn "park" c || subIn "garden" c) then 60
  else if cats.any (fun c => subIn "cafe" c) then 45
  else if cats.any (fun c => subIn "restaurant" c) then 75
  else if cats.any (fun c => subIn "mall" c) then 120
  else if cats.any (fun c => subIn "museum" c) then 60
  else if cats.any (fun c => subIn "adventure" c || subIn "amusement" c) then 90
  else 45

/-- An enriched candidate: the input place together with the extracted
coordinates and the fields added by the enrichment pass
(`planner.py` lines 99-104). -/
structure Enriched where
  place : Place
  lat : ℚ
  lon : ℚ
  travel_from_start : ℚ
  score : ℚ
  approx_cost_pp : ℚ
deriving Repr, DecidableEq

/-- One iteration of the enrichment loop (`planner.py` lines 92-104):
`plat, plon = p["lat"], p["lon"]` raises `KeyError` when a coordinate is
missing, modelled as `Except.error`. -/
def enrich_place (start_lat start_lon budget_per_person : ℚ) (p : Place) :
    Except String Enriched :=
  match p.lat, p.lon with
  | some plat, some plon =>
    let travel_min := travel_time_min start_lat start_lon plat plon
    let sc := compute_score p budget_per_person travel_min
    .ok ⟨p, plat, plon, travel_min, sc.1, sc.2⟩
  | _, _ => .error "KeyError: lat/lon"

/-- The whole enrichment loop: Python's `for p in selected_places` aborts with
the exception of the first malformed record. -/
def enrich_all (start_lat start_lon budget_per_person : ℚ) :
    List Place → Except String (List Enriched)
  | [] => .ok []
  | p :: rest =>
    match enrich_place start_lat start_lon budget_per_person p with
    | .error e => .error e
    | .ok en =>
      match enrich_all start_lat start_lon budget_per_person rest with
      | .error e => .error e
      | .ok ens => .ok (en :: ens)

/-- Stable insertion into a list sorted by `key` descending: the new element
goes before the first element whose key is not larger, so an element earlier
in the input stays before later elements with an equal key. -/
def insertD (key : α → ℚ) (x : α) : List α → List α
  | [] => [x]
  | y :: ys => if key x < key y then y :: insertD key x ys else x :: y :: ys

/-- Stable sort by `key` descending, modelling Python's stable
`list.sort(key=..., reverse=True)` (`planner.py` line 107); its defining
properties (permutation, sortedness, stability) are proved below. -/
def sortD (key : α → ℚ) : List α → List α
  | [] => []
  | x :: xs => insertD key x (sortD key xs)

/-- The constant `MAX_MINUTES = 8 * 60` (`planner.py` line 116). -/
def MAX_MINUTES : ℚ := 8 * 60

/-- The greedy acceptance loop (`planner.py` lines 118-147), carrying
`remaining_budget`, the current position and `total_minutes_used`. -/
def greedy_loop (people : ℤ) :
    List Enriched → ℚ → ℚ → ℚ → ℚ → List Stop
  | [], _, _, _, _ => []
  | p :: rest, remaining_budget, current_lat, current_lon, total_minutes_used =>
    let total_cost := p.approx_cost_pp * (people : ℚ)
    if total_cost > remaining_budget then
      greedy_loop people rest remaining_budget current_lat current_lon total_minutes_used
    else
      let travel_min := travel_time_min current_lat current_lon p.lat p.lon
      let visit_duration := estimate_visit_duration p.place
      if total_minutes_used + travel_min + visit_duration > MAX_MINUTES then
        greedy_loop people rest remaining_budget current_lat current_lon total_minutes_used
      else
        { name := p.place.name
          categories := p.place.categories.getD []
          photo_url := p.place.photo_url
          cost := total_cost
          travel_time := travel_min
          duration := visit_duration
          lat := p.lat
          lon := p.lon } ::
        greedy_loop people rest (remaining_budget - total_cost) p.lat p.lon
          (total_minutes_used + travel_min + visit_duration)

/-- The function `generate_itinerary_from_selected` (`planner.py` lines 74-149). The result
is `Except` because the enrichment loop can raise `KeyError` on a record with
missing coordinates. -/
def generate_itinerary_from_selected (selected_places : List Place)
    (start_lat start_lon total_budget : ℚ) (people : ℤ) :
    Except String (List Stop) :=
  if selected_places.isEmpty then .ok []
  else
    let budget_per_person := total_budget / pymax 1 (people : ℚ)
    match enrich_all start_lat start_lon budget_per_person selected_places with
    | .error e => .error e
    | .ok enriched =>
      let sorted := sortD Enriched.score enriched
      .ok (greedy_loop people sorted total_budget start_lat start_lon 0)

/-! ### Spec-side definitions (written from the spec's words, for comparison) -/

/-- Spec §4.3: `approximateCost(priceTier: optional int)`, a fixed lookup
`1:200, 2:400, 3:800, 4:1200`, default 400 for missing or unrecognized
tiers. -/
def approximateCost (priceTier : Option ℤ) : ℚ :=
  match priceTier with
  | none => 400
  | some t =>
    if t = 1 then 200
    else if t = 2 then 400
    else if t = 3 then 800
    else if t = 4 then 1200
    else 400

/-- Spec §4.2: `estimateDuration(categories)`, case-insensitive substring
matching in fixed priority order, first match wins, default 45. -/
def estimateDuration (categories : List String) : ℚ :=
  let cats := categories.map lowerStr
  if cats.any (fun c => subIn "park" c || subIn "garden" c) then 60
  else if cats.any (fun c => subIn "cafe" c) then 45
  else if cats.any (fun c => subIn "restaurant" c) then 75
  else if cats.any (fun c => subIn "mall" c) then 120
  else if cats.any (fun c => subIn "museum" c) then 60
  else if cats.any (fun c => subIn "adventure" c || subIn "amusement" c) then 90
  else 45

/-- Spec §4.4 enrichment pass: one Enriched Candidate per place whose
coordinates can be determined; a place with a missing coordinate is excluded
("cannot score", §6). -/
def spec_candidate (startLat startLon budgetPerPerson : ℚ) (p : Place) :
    Option Enriched :=
  match p.lat, p.lon with
  | some plat, some plon =>
    let travelMinutesFromStart := travel_time_min startLat startLon plat plon
    let sc := compute_score p budgetPerPerson travelMinutesFromStart
    some ⟨p, plat, plon, travelMinutesFromStart, sc.1, sc.2⟩
  | _, _ => none

/-- Spec §4.4 greedy-acceptance state: the itinerary built so far,
`remainingBudget`, `currentPosition` and `minutesUsed`. -/
structure BuildState where
  itinerary : List Stop
  remainingBudget : ℚ
  currentLat : ℚ
  currentLon : ℚ
  minutesUsed : ℚ

/-- Spec §4.4 steps 1-5 for a single candidate: budget gate, travel time
recomputed from the current position, time gate, acceptance with state
update; a skipped candidate leaves the state unchanged (no early
termination). -/
def spec_accept_step (partySize : ℤ) (st : BuildState) (c : Enriched) :
    BuildState :=
  let totalCost := c.approx_cost_pp * (partySize : ℚ)
  if totalCost > st.remainingBudget then st
  else
    let travelMinutes := travel_time_min st.currentLat st.currentLon c.lat c.lon
    let visitDuration := estimate_visit_duration c.place
    if st.minutesUsed + travelMinutes + visitDuration > MAX_MINUTES then st
    else
      ⟨st.itinerary ++
        [{ name := c.place.name
           categories := c.place.categories.getD []
           photo_url := c.place.photo_url
           cost := totalCost
           travel_time := travelMinutes
           duration := visitDuration
           lat := c.lat
           lon := c.lon }],
       st.remainingBudget - totalCost, c.lat, c.lon,
       st.minutesUsed + travelMinutes + visitDuration⟩

/-- Spec §4.4 `buildItinerary`: enrichment pass, one stable sort by score
descending, then a single greedy scan over the sorted candidates; Stops are
returned in acceptance order. -/
def buildItinerary (selectedPlaces : List Place)
    (startLat startLon totalBudget : ℚ) (partySize : ℤ) : List Stop :=
  let budgetPerPerson := totalBudget / pymax 1 (partySize : ℚ)
  let candidates :=
    selectedPlaces.filterMap (spec_candidate startLat startLon budgetPerPerson)
  let ordered := sortD Enriched.score candidates
  (ordered.foldl (spec_accept_step partySize)
    ⟨[], totalBudget, startLat, startLon, 0⟩).itinerary

/-! ### Auxiliary predicates and sample inputs -/

/-- Each stop's cost is affordable against the budget remaining at the moment
of its acceptance. -/
def costs_affordable (budget : ℚ) : List Stop → Prop
  | [] => True
  | s :: rest => s.cost ≤ budget ∧ costs_affordable (budget - s.cost) rest

instance {ε α : Type} [DecidableEq ε] [DecidableEq α] :
    DecidableEq (Except ε α) := fun x y =>
  match x, y with
  | .error a, .error b =>
    if h : a = b then .isTrue (by rw [h])
    else .isFalse (fun hc => h (by cases hc; rfl))
  | .ok a, .ok b =>
    if h : a = b then .isTrue (by rw [h])
    else .isFalse (fun hc => h (by cases hc; rfl))
  | .error _, .ok _ => .isFalse (fun hc => Except.noConfusion hc)
  | .ok _, .error _ => .isFalse (fun hc => Except.noConfusion hc)

/-- A well-formed sample place with no optional data. -/
def pA : Place := ⟨"A", none, none, some 0, some 0, none, none⟩

/-- A sample place tagged both Park and Cafe. -/
def pPark : Place := ⟨"P", some ["Park", "Cafe"], none, some 0, some 0, none, none⟩

/-- A sample mall one unit away with explicit popularity and price tier. -/
def pMall : Place := ⟨"M", some ["Mall"], none, some 1, some 1, some 0.9, some 3⟩

/-- A malformed sample record whose coordinates are missing. -/
def pNoCoord : Place := ⟨"B", none, none, none, none, none, none⟩

/-- A sample place so far from the start that travel plus visit duration
exceeds the 480-minute window. -/
def pFar : Place := ⟨"F", none, none, some 0, some 200, none, none⟩

/-! ### Properties of the stable descending sort -/

theorem insertD_perm {α : Type} (key : α → ℚ) (x : α) (l : List α) :
    List.Perm (insertD key x l) (x :: l) := by
  induction l with
  | nil => exact List.Perm.refl _
  | cons y ys ih =>
    by_cases h : key x < key y
    · rw [insertD, if_pos h]
      exact (ih.cons y).trans (List.Perm.swap x y ys)
    · rw [insertD, if_neg h]

theorem sortD_perm {α : Type} (key : α → ℚ) (l : List α) :
    List.Perm (sortD key l) l := by
  induction l with
  | nil => exact List.Perm.refl _
  | cons x xs ih => exact (insertD_perm key x (sortD key xs)).trans (ih.cons x)

theorem insertD_pairwise {α : Type} (key : α → ℚ) (x : α) (l : List α)
    (h : l.Pairwise (fun a b => key b ≤ key a)) :
    (insertD key x l).Pairwise (fun a b => key b ≤ key a) := by
  induction l with
  | nil => simp [insertD]
  | cons y ys ih =>
    rcases List.pairwise_cons.mp h with ⟨hy, hys⟩
    by_cases hlt : key x < key y
    · rw [insertD, if_pos hlt]
      refine List.pairwise_cons.mpr ⟨?_, ih hys⟩
      intro z hz
      rcases List.mem_cons.mp ((insertD_perm key x ys).mem_iff.mp hz) with rfl | hzys
      · exact le_of_lt hlt
      · exact hy z hzys
    · rw [insertD, if_neg hlt]
      refine List.pairwise_cons.mpr ⟨?_, List.pairwise_cons.mpr ⟨hy, hys⟩⟩
      intro z hz
      rcases List.mem_cons.mp hz with rfl | hzys
      · exact not_lt.mp hlt
      · exact (hy z hzys).trans (not_lt.mp hlt)

theorem sortD_pairwise {α : Type} (key : α → ℚ) (l : List α) :
    (sortD key l).Pairwise (fun a b => key b ≤ key a) := by
  induction l with
  | nil => simp [sortD]
  | cons x xs ih => exact insertD_pairwise key x (sortD key xs) ih

theorem insertD_filter {α : Type} (key : α → ℚ) (x : α) (l : List α) (s : ℚ) :
    (insertD key x l).filter (fun e => decide (key e = s)) =
      if key x = s then x :: l.filter (fun e => decide (key e = s))
      else l.filter (fun e => decide (key e = s)) := by
  induction l with
  | nil => by_cases hxs : key x = s <;> simp [insertD, List.filter_cons, hxs]
  | cons y ys ih =>
    by_cases hlt : key x < key y
    · rw [insertD, if_pos hlt]
      by_cases hxs : key x = s
      · have hys : ¬ (key y = s) := by rw [← hxs]; exact ne_of_gt hlt
        simp [List.filter_cons, hys, hxs, ih]
      · simp [List.filter_cons, hxs, ih]
    · rw [insertD, if_neg hlt]
      by_cases hxs : key x = s <;> simp [List.filter_cons, hxs]

theorem sortD_filter_stable {α : Type} (key : α → ℚ) (l : List α) (s : ℚ) :
    (sortD key l).filter (fun e => decide (key e = s)) =
      l.filter (fun e => decide (key e = s)) := by
  induction l with
  | nil => rfl
  | cons x xs ih =>
    rw [sortD, insertD_filter]
    by_cases hxs : key x = s <;> simp [List.filter_cons, hxs, ih]

/-! ### Invariants of the greedy acceptance loop -/

theorem pymax_eq_max (a b : ℚ) : pymax a b = max a b := by
  rw [max_def, pymax]
  split_ifs with h1 h2 <;> first | rfl | linarith

theorem greedy_costs_affordable (people : ℤ) (l : List Enriched) :
    ∀ rb clat clon used,
      costs_affordable rb (greedy_loop people l rb clat clon used) := by
  induction l with
  | nil =>
    intro rb clat clon used
    simp [greedy_loop, costs_affordable]
  | cons p rest ih =>
    intro rb clat clon used
    simp only [greedy_loop]
    split_ifs with h1 h2
    · exact ih rb clat clon used
    · exact ih rb clat clon used
    · exact ⟨not_lt.mp h1, ih _ _ _ _⟩

theorem costs_affordable_sum (l : List Stop) :
    ∀ B : ℚ, costs_affordable B l → 0 ≤ B → (l.map Stop.cost).sum ≤ B := by
  induction l with
  | nil =>
    intro B _ hB
    simpa using hB
  | cons s rest ih =>
    intro B h hB
    rcases h with ⟨h1, h2⟩
    have hrec := ih (B - s.cost) h2 (sub_nonneg.mpr h1)
    simp only [List.map_cons, List.sum_cons]
    linarith

theorem greedy_time_le (people : ℤ) (l : List Enriched) :
    ∀ rb clat clon used, used ≤ MAX_MINUTES →
      used + ((greedy_loop people l rb clat clon used).map
        (fun s => s.travel_time + s.duration)).sum ≤ MAX_MINUTES := by
  induction l with
  | nil =>
    intro rb clat clon used hu
    simpa [greedy_loop] using hu
  | cons p rest ih =>
    intro rb clat clon used hu
    simp only [greedy_loop]
    split_ifs with h1 h2
    · exact ih rb clat clon used hu
    · exact ih rb clat clon used hu
    · simp only [List.map_cons, List.sum_cons]
      have hstep := ih (rb - p.approx_cost_pp * (people : ℚ)) p.lat p.lon
        (used + travel_time_min clat clon p.lat p.lon + estimate_visit_duration p.place)
        (not_lt.mp h2)
      linarith

theorem greedy_mem (people : ℤ) (l : List Enriched) :
    ∀ rb clat clon used s, s ∈ greedy_loop people l rb clat clon used →
      ∃ e ∈ l, s.categories = e.place.categories.getD [] := by
  induction l with
  | nil =>
    intro rb clat clon used s hs
    simp [greedy_loop] at hs
  | cons p rest ih =>
    intro rb clat clon used s hs
    simp only [greedy_loop] at hs
    split_ifs at hs with h1 h2
    · obtain ⟨e, he, hcat⟩ := ih _ _ _ _ s hs
      exact ⟨e, List.mem_cons_of_mem p he, hcat⟩
    · obtain ⟨e, he, hcat⟩ := ih _ _ _ _ s hs
      exact ⟨e, List.mem_cons_of_mem p he, hcat⟩
    · rcases List.mem_cons.mp hs with rfl | hs2
      · exact ⟨p, List.mem_cons_self p rest, rfl⟩
      · obtain ⟨e, he, hcat⟩ := ih _ _ _ _ s hs2
        exact ⟨e, List.mem_cons_of_mem p he, hcat⟩

/-! ### Enrichment pass lemmas -/

theorem enrich_place_ok (slat slon bpp : ℚ) (p : Place) (en : Enriched)
    (h : enrich_place slat slon bpp p = .ok en) : en.place = p := by
  unfold enrich_place at h
  rcases hlat : p.lat with _ | plat
  · rcases hlon : p.lon with _ | plon
    · rw [hlat, hlon] at h
      cases h
    · rw [hlat, hlon] at h
      cases h
  · rcases hlon : p.lon with _ | plon
    · rw [hlat, hlon] at h
      cases h
    · rw [hlat, hlon] at h
      cases h
      rfl

theorem enrich_all_mem (slat slon bpp : ℚ) :
    ∀ (places : List Place) (es : List Enriched),
      enrich_all slat slon bpp places = .ok es →
      ∀ e ∈ es, e.place ∈ places := by
  intro places
  induction places with
  | nil =>
    intro es h e he
    rw [enrich_all] at h
    cases h
    simp at he
  | cons p rest ih =>
    intro es h e he
    rw [enrich_all] at h
    rcases hp : enrich_place slat slon bpp p with err | en <;> rw [hp] at h
    · cases h
    · rcases hr : enrich_all slat slon bpp rest with err | ens <;> rw [hr] at h
      · cases h
      · cases h
        rcases List.mem_cons.mp he with rfl | he2
        · rw [enrich_place_ok slat slon bpp p e hp]
          exact List.mem_cons_self p rest
        · exact List.mem_cons_of_mem p (ih ens hr e he2)

theorem enrich_all_eq_filterMap (slat slon bpp : ℚ) (places : List Place)
    (h : ∀ p ∈ places, p.lat.isSome ∧ p.lon.isSome) :
    enrich_all slat slon bpp places =
      .ok (places.filterMap (spec_candidate slat slon bpp)) := by
  induction places with
  | nil => rfl
  | cons p rest ih =>
    obtain ⟨hl, hlo⟩ := h p (List.mem_cons_self p rest)
    obtain ⟨plat, hplat⟩ := Option.isSome_iff_exists.mp hl
    obtain ⟨plon, hplon⟩ := Option.isSome_iff_exists.mp hlo
    rw [enrich_all, ih (fun q hq => h q (List.mem_cons_of_mem p hq))]
    simp [enrich_place, spec_candidate, hplat, hplon, List.filterMap_cons]

theorem foldl_accept_itinerary (people : ℤ) (l : List Enriched) :
    ∀ acc rb clat clon used,
      (l.foldl (spec_accept_step people) ⟨acc, rb, clat, clon, used⟩).itinerary =
        acc ++ greedy_loop people l rb clat clon used := by
  induction l with
  | nil =>
    intro acc rb clat clon used
    simp [greedy_loop]
  | cons p rest ih =>
    intro acc rb clat clon used
    simp only [List.foldl_cons, spec_accept_step, greedy_loop]
    split_ifs with h1 h2
    · exact ih acc rb clat clon used
    · exact ih acc rb clat clon used
    · rw [ih]
      simp

/-- Unconditional unfolding of `generate_itinerary_from_selected`: the empty
input short-circuit agrees with running the pipeline on the empty list. -/
theorem gen_eq (places : List Place) (slat slon B : ℚ) (n : ℤ) :
    generate_itinerary_from_selected places slat slon B n =
      match enrich_all slat slon (B / pymax 1 (n : ℚ)) places with
      | .error e => .error e
      | .ok es => .ok (greedy_loop n (sortD Enriched.score es) B slat slon 0) := by
  cases places with
  | nil => rfl
  | cons p rest => rfl

/-- When every record has coordinates, the code equals the spec's
`buildItinerary`. -/
theorem gen_eq_buildItinerary (places : List Place) (slat slon B : ℚ) (n : ℤ)
    (h : ∀ p ∈ places, p.lat.isSome ∧ p.lon.isSome) :
    generate_itinerary_from_selected places slat slon B n =
      .ok (buildItinerary places slat slon B n) := by
  rw [gen_eq, enrich_all_eq_filterMap slat slon (B / pymax 1 (n : ℚ)) places h]
  simp only [buildItinerary, foldl_accept_itinerary, List.nil_append]

/-- When the enrichment pass returns, the planner result is the greedy scan
over the sorted enriched candidates. -/
theorem gen_ok_of_enrich (places : List Place) (slat slon B : ℚ) (n : ℤ)
    (es : List Enriched)
    (hEA : enrich_all slat slon (B / pymax 1 (n : ℚ)) places = .ok es) :
    generate_itinerary_from_selected places slat slon B n =
      .ok (greedy_loop n (sortD Enriched.score es) B slat slon 0) := by
  rw [gen_eq, hEA]

/-- A successful `spec_candidate` keeps the place, records its coordinates,
and carries the price-tier lookup as its per-person cost. -/
theorem spec_candidate_ok (slat slon bpp : ℚ) (p : Place) (e : Enriched)
    (h : spec_candidate slat slon bpp p = some e) :
    e.place = p ∧ p.lat = some e.lat ∧ p.lon = some e.lon ∧
      e.approx_cost_pp = approx_cost_of (p.price_tier.getD 2) := by
  unfold spec_candidate at h
  rcases hlat : p.lat with _ | plat
  · rcases hlon : p.lon with _ | plon
    · rw [hlat, hlon] at h
      cases h
    · rw [hlat, hlon] at h
      cases h
  · rcases hlon : p.lon with _ | plon
    · rw [hlat, hlon] at h
      cases h
    · rw [hlat, hlon] at h
      cases h
      exact ⟨rfl, rfl, rfl, rfl⟩

/-- If every candidate fails the budget gate or the time gate at the current
state, the greedy loop accepts nothing. -/
theorem greedy_loop_all_skip (people : ℤ) (l : List Enriched)
    (rb clat clon used : ℚ)
    (h : ∀ e ∈ l, e.approx_cost_pp * (people : ℚ) > rb ∨
      used + travel_time_min clat clon e.lat e.lon +
        estimate_visit_duration e.place > MAX_MINUTES) :
    greedy_loop people l rb clat clon used = [] := by
  induction l with
  | nil => rfl
  | cons p rest ih =>
    have hrest := fun e he => h e (List.mem_cons_of_mem p he)
    simp only [greedy_loop]
    rcases h p (List.mem_cons_self p rest) with hb | ht
    · rw [if_pos hb]
      exact ih hrest
    · by_cases hb : p.approx_cost_pp * (people : ℚ) > rb
      · rw [if_pos hb]
        exact ih hrest
      · rw [if_neg hb, if_pos ht]
        exact ih hrest

/-! ### Claim theorems -/

/-- C1: for every input with positive total budget, every accepted Stop's cost
(`approx_cost_pp * people`) is at most the budget remaining at the moment of
its acceptance, hence the sum of the cost fields of the returned itinerary
never exceeds the total budget. -/
theorem claim1_budget_invariant
    (places : List Place) (slat slon B : ℚ) (n : ℤ) (itin : List Stop)
    (hB : 0 < B)
    (h : generate_itinerary_from_selected places slat slon B n = .ok itin) :
    costs_affordable B itin ∧ (itin.map Stop.cost).sum ≤ B := by
  rw [gen_eq] at h
  rcases hEA : enrich_all slat slon (B / pymax 1 (n : ℚ)) places with err | es <;>
    rw [hEA] at h
  · cases h
  · cases h
    refine ⟨greedy_costs_affordable n _ B slat slon 0, ?_⟩
    exact costs_affordable_sum _ B (greedy_costs_affordable n _ B slat slon 0) hB.le

/-- Witness for C1: the single affordable sample place is accepted with cost
800 against budget 2000 and the invariant holds on the concrete output. -/
theorem claim1_budget_invariant_witness :
    costs_affordable 2000 [⟨"A", [], none, 800, 0, 45, 0, 0⟩] ∧
      (([⟨"A", [], none, 800, 0, 45, 0, 0⟩] : List Stop).map Stop.cost).sum ≤ 2000 :=
  claim1_budget_invariant [pA] 0 0 2000 2 _ (by norm_num)
    (by with_unfolding_all decide)

/-- C2: `MAX_MINUTES` is 480 (8 hours) and the sum over the returned itinerary
of travel time plus visit duration never exceeds it: a candidate that would
push the cumulative minutes past 480 is not accepted. -/
theorem claim2_time_invariant :
    MAX_MINUTES = 480 ∧
      ∀ (places : List Place) (slat slon B : ℚ) (n : ℤ) (itin : List Stop),
        generate_itinerary_from_selected places slat slon B n = .ok itin →
        (itin.map (fun s => s.travel_time + s.duration)).sum ≤ 480 := by
  have h480 : MAX_MINUTES = 480 := by norm_num [MAX_MINUTES]
  refine ⟨h480, ?_⟩
  intro places slat slon B n itin h
  rw [gen_eq] at h
  rcases hEA : enrich_all slat slon (B / pymax 1 (n : ℚ)) places with err | es <;>
    rw [hEA] at h
  · cases h
  · cases h
    have hmain := greedy_time_le n (sortD Enriched.score es) B slat slon 0
      (by rw [h480]; norm_num)
    rw [h480] at hmain
    linarith

/-- Witness for C2 on the concrete single-stop itinerary. -/
theorem claim2_time_invariant_witness :
    (([⟨"A", [], none, 800, 0, 45, 0, 0⟩] : List Stop).map
      (fun s => s.travel_time + s.duration)).sum ≤ 480 :=
  claim2_time_invariant.2 [pA] 0 0 2000 2 _ (by with_unfolding_all decide)

/-- C3: on inputs whose records all carry coordinates, the code equals the
spec's two-phase reference algorithm `buildItinerary` (enrich against the
fixed start, one sort, one greedy scan with travel recomputed from the moving
position); moreover the single sort used by both is a permutation, is ordered
by score descending, and is stable (candidates of equal score keep their
original relative order). -/
theorem claim3_two_phase_refinement :
    (∀ (places : List Place) (slat slon B : ℚ) (n : ℤ),
        (∀ p ∈ places, p.lat.isSome ∧ p.lon.isSome) →
        generate_itinerary_from_selected places slat slon B n =
          .ok (buildItinerary places slat slon B n)) ∧
      (∀ l : List Enriched, List.Perm (sortD Enriched.score l) l) ∧
      (∀ l : List Enriched,
        (sortD Enriched.score l).Pairwise (fun a b => b.score ≤ a.score)) ∧
      (∀ (l : List Enriched) (s : ℚ),
        (sortD Enriched.score l).filter (fun e => decide (e.score = s)) =
          l.filter (fun e => decide (e.score = s))) :=
  ⟨gen_eq_buildItinerary, sortD_perm _, sortD_pairwise _, sortD_filter_stable _⟩

/-- Witness for C3 at a concrete two-place input. -/
theorem claim3_two_phase_refinement_witness :
    generate_itinerary_from_selected [pA, pMall] 0 0 5000 2 =
      .ok (buildItinerary [pA, pMall] 0 0 5000 2) :=
  claim3_two_phase_refinement.1 [pA, pMall] 0 0 5000 2 (by decide)

/-- C4: the spec requires a record with missing coordinates to be silently
excluded with the remaining places still processed, but the code performs an
unguarded `p["lat"]` lookup: on an input containing such a record it raises
`KeyError` (total failure), even though a well-formed place follows. -/
theorem claim4_missing_coordinate_keyerror :
    generate_itinerary_from_selected [pNoCoord, pA] 0 0 1000 1 =
      .error "KeyError: lat/lon" := by
  with_unfolding_all decide

/-- C5: `compute_score` returns exactly the spec's pair: weighted sum
`0.5*popularity + 0.3*costFactor - 0.2*(travel/30)` with popularity default
0.6 and `costFactor` floored at 0, paired with `approximateCost` of the price
tier; and `approximateCost(3) = 800`, `approximateCost(None) = 400`. -/
theorem claim5_compute_score_spec :
    (∀ (place : Place) (bpp travel : ℚ),
        compute_score place bpp travel =
          (0.5 * place.popularity.getD 0.6 +
            0.3 * max 0 ((bpp - approximateCost place.price_tier) / max 1 bpp) -
            0.2 * (travel / 30),
           approximateCost place.price_tier)) ∧
      approximateCost (some 3) = 800 ∧ approximateCost none = 400 := by
  refine ⟨?_, by norm_num [approximateCost], rfl⟩
  intro place bpp travel
  have hac : approx_cost_of (place.price_tier.getD 2) =
      approximateCost place.price_tier := by
    rcases place.price_tier with _ | t
    · norm_num [approx_cost_of, approximateCost]
    · rfl
  simp only [compute_score, pymax_eq_max, hac]

/-- C6: `estimate_visit_duration` is exactly the spec's case-insensitive,
priority-ordered substring lookup `estimateDuration` on the categories (empty
when the key is missing), and a place tagged `["Park", "Cafe"]` yields 60
(park wins over cafe). -/
theorem claim6_visit_duration_spec :
    (∀ p : Place,
        estimate_visit_duration p = estimateDuration (p.categories.getD [])) ∧
      ∀ p : Place, p.categories = some ["Park", "Cafe"] →
        estimate_visit_duration p = 60 := by
  refine ⟨fun p => rfl, ?_⟩
  intro p h
  change estimateDuration (p.categories.getD []) = 60
  rw [h]
  decide

/-- Witness for C6 at the concrete Park/Cafe place. -/
theorem claim6_visit_duration_spec_witness :
    estimate_visit_duration pPark = 60 :=
  claim6_visit_duration_spec.2 pPark rfl

/-- C7: expected "no good answer" situations yield an empty itinerary and
never an exception: the empty input list returns `ok []`; any non-empty
coordinate-complete list in which every candidate fails the budget gate or
the time gate returns `ok []`; in particular a single candidate whose party
cost exceeds the total budget, or whose travel plus visit duration overruns
the 480-minute window, is skipped and the itinerary is empty even though the
input list was non-empty. -/
theorem claim7_empty_result_signaling :
    (∀ (slat slon B : ℚ) (n : ℤ),
        generate_itinerary_from_selected [] slat slon B n = .ok []) ∧
      (∀ (places : List Place) (slat slon B : ℚ) (n : ℤ),
        (∀ p ∈ places, p.lat.isSome ∧ p.lon.isSome) →
        (∀ p ∈ places, ∀ plat plon : ℚ,
          p.lat = some plat → p.lon = some plon →
          approx_cost_of (p.price_tier.getD 2) * (n : ℚ) > B ∨
          travel_time_min slat slon plat plon + estimate_visit_duration p >
            MAX_MINUTES) →
        generate_itinerary_from_selected places slat slon B n = .ok []) ∧
      (∀ (p : Place) (plat plon slat slon B : ℚ) (n : ℤ),
        p.lat = some plat → p.lon = some plon →
        approx_cost_of (p.price_tier.getD 2) * (n : ℚ) > B →
        generate_itinerary_from_selected [p] slat slon B n = .ok []) ∧
      ∀ (p : Place) (plat plon slat slon B : ℚ) (n : ℤ),
        p.lat = some plat → p.lon = some plon →
        travel_time_min slat slon plat plon + estimate_visit_duration p >
          MAX_MINUTES →
        generate_itinerary_from_selected [p] slat slon B n = .ok [] := by
  have hgen : ∀ (places : List Place) (slat slon B : ℚ) (n : ℤ),
      (∀ p ∈ places, p.lat.isSome ∧ p.lon.isSome) →
      (∀ p ∈ places, ∀ plat plon : ℚ,
        p.lat = some plat → p.lon = some plon →
        approx_cost_of (p.price_tier.getD 2) * (n : ℚ) > B ∨
        travel_time_min slat slon plat plon + estimate_visit_duration p >
          MAX_MINUTES) →
      generate_itinerary_from_selected places slat slon B n = .ok [] := by
    intro places slat slon B n hcoords hfail
    have hEA := enrich_all_eq_filterMap slat slon (B / pymax 1 (n : ℚ)) places hcoords
    rw [gen_ok_of_enrich places slat slon B n _ hEA]
    refine congrArg Except.ok (greedy_loop_all_skip n _ B slat slon 0 ?_)
    intro e he
    have he2 : e ∈ places.filterMap
        (spec_candidate slat slon (B / pymax 1 (n : ℚ))) :=
      (sortD_perm Enriched.score _).mem_iff.mp he
    obtain ⟨p, hp, hpc⟩ := List.mem_filterMap.mp he2
    obtain ⟨hep, hplat, hplon, hecost⟩ := spec_candidate_ok _ _ _ p e hpc
    rcases hfail p hp e.lat e.lon hplat hplon with hb | ht
    · left
      rw [hecost]
      exact hb
    · right
      rw [hep, zero_add]
      exact ht
  refine ⟨fun slat slon B n => rfl, hgen, ?_, ?_⟩
  · intro p plat plon slat slon B n hlat hlon hcost
    refine hgen [p] slat slon B n ?_ ?_
    · intro q hq
      rw [List.mem_singleton.mp hq, hlat, hlon]
      exact ⟨rfl, rfl⟩
    · intro q hq plat2 plon2 h1 h2
      rw [List.mem_singleton.mp hq] at h1 h2 ⊢
      left
      exact hcost
  · intro p plat plon slat slon B n hlat hlon htime
    refine hgen [p] slat slon B n ?_ ?_
    · intro q hq
      rw [List.mem_singleton.mp hq, hlat, hlon]
      exact ⟨rfl, rfl⟩
    · intro q hq plat2 plon2 h1 h2
      rw [List.mem_singleton.mp hq] at h1 h2 ⊢
      right
      cases Option.some.inj (hlat.symm.trans h1)
      cases Option.some.inj (hlon.symm.trans h2)
      exact htime

/-- Witness for C7: a budget-gate skip (party cost 800 > budget 700) and a
time-gate skip (600 travel minutes + 45 > 480) on concrete singletons. -/
theorem claim7_empty_result_signaling_witness :
    generate_itinerary_from_selected [pA] 0 0 700 2 = .ok [] ∧
      generate_itinerary_from_selected [pFar] 0 0 2000 2 = .ok [] :=
  ⟨claim7_empty_result_signaling.2.2.1 pA 0 0 0 0 700 2 rfl rfl
     (by norm_num [approx_cost_of, pA]),
   claim7_empty_result_signaling.2.2.2 pFar 0 200 0 0 2000 2 rfl rfl
     (by with_unfolding_all decide)⟩

/-- C8: with identical popularity and price tier, strictly smaller travel
time gives a strictly higher score: the travel penalty `travel/30` with
weight 0.2 is strictly monotone and uncapped. -/
theorem claim8_travel_penalty_monotone (p q : Place) (bpp t1 t2 : ℚ)
    (hpop : p.popularity = q.popularity) (htier : p.price_tier = q.price_tier)
    (ht : t1 < t2) :
    (compute_score q bpp t2).1 < (compute_score p bpp t1).1 := by
  simp only [compute_score, hpop, htier]
  have hdiv : t1 / 30 < t2 / 30 := by linarith
  linarith

/-- Witness for C8: the same place 30 travel minutes away scores strictly
below itself at distance 0. -/
theorem claim8_travel_penalty_monotone_witness :
    (compute_score pA 1000 30).1 < (compute_score pA 1000 0).1 :=
  claim8_travel_penalty_monotone pA pA 1000 0 30 rfl rfl (by norm_num)

/-- C9: the distance function is non-negative, symmetric, and zero iff the
two coordinates coincide, and `travel_time_min` is distance divided by speed
times 60, with default speed 20; both are pure Lean functions, hence
deterministic. -/
theorem claim9_distance_travel_time :
    (∀ lat1 lon1 lat2 lon2 : ℚ, 0 ≤ distance_km lat1 lon1 lat2 lon2) ∧
      (∀ lat1 lon1 lat2 lon2 : ℚ,
        distance_km lat1 lon1 lat2 lon2 = distance_km lat2 lon2 lat1 lon1) ∧
      (∀ lat1 lon1 lat2 lon2 : ℚ,
        distance_km lat1 lon1 lat2 lon2 = 0 ↔ lat1 = lat2 ∧ lon1 = lon2) ∧
      (∀ lat1 lon1 lat2 lon2 speed : ℚ,
        travel_time_min_at lat1 lon1 lat2 lon2 speed =
          distance_km lat1 lon1 lat2 lon2 / speed * 60) ∧
      (∀ lat1 lon1 lat2 lon2 : ℚ,
        travel_time_min lat1 lon1 lat2 lon2 =
          travel_time_min_at lat1 lon1 lat2 lon2 20) := by
  refine ⟨?_, ?_, ?_, fun _ _ _ _ _ => rfl, fun _ _ _ _ => rfl⟩
  · intro a b c d
    unfold distance_km geodesic_km
    positivity
  · intro a b c d
    unfold distance_km geodesic_km
    rw [abs_sub_comm, abs_sub_comm b d]
  · intro a b c d
    unfold distance_km geodesic_km
    constructor
    · intro h
      have hac : |a - c| = 0 := by
        have := abs_nonneg (a - c)
        have := abs_nonneg (b - d)
        linarith
      have hbd : |b - d| = 0 := by
        have := abs_nonneg (a - c)
        have := abs_nonneg (b - d)
        linarith
      exact ⟨sub_eq_zero.mp (abs_eq_zero.mp hac),
        sub_eq_zero.mp (abs_eq_zero.mp hbd)⟩
    · rintro ⟨rfl, rfl⟩
      simp

/-- C10: a place dict lacking the `categories` key is handled totally:
`estimate_visit_duration` returns the default 45, any accepted Stop carries
the empty category list, and (with coordinates present) the whole planner
still returns a result rather than raising. -/
theorem claim10_missing_categories_total :
    (∀ p : Place, p.categories = none → estimate_visit_duration p = 45) ∧
      (∀ (places : List Place) (slat slon B : ℚ) (n : ℤ) (itin : List Stop),
        generate_itinerary_from_selected places slat slon B n = .ok itin →
        (∀ p ∈ places, p.categories = none) →
        ∀ s ∈ itin, s.categories = []) ∧
      ∀ (places : List Place) (slat slon B : ℚ) (n : ℤ),
        (∀ p ∈ places, p.lat.isSome ∧ p.lon.isSome) →
        ∃ itin, generate_itinerary_from_selected places slat slon B n =
          .ok itin := by
  refine ⟨?_, ?_, ?_⟩
  · intro p h
    unfold estimate_visit_duration
    rw [h]
    decide
  · intro places slat slon B n itin hgen hcat s hs
    rw [gen_eq] at hgen
    rcases hEA : enrich_all slat slon (B / pymax 1 (n : ℚ)) places with err | es <;>
      rw [hEA] at hgen
    · cases hgen
    · cases hgen
      obtain ⟨e, he, hecat⟩ := greedy_mem n _ B slat slon 0 s hs
      have he2 : e ∈ es := (sortD_perm Enriched.score es).mem_iff.mp he
      have hp := enrich_all_mem slat slon _ places es hEA e he2
      rw [hecat, hcat e.place hp]
      rfl
  · intro places slat slon B n h
    exact ⟨buildItinerary places slat slon B n,
      gen_eq_buildItinerary places slat slon B n h⟩

/-- Witness for C10: the category-less sample place gets duration 45 and its
accepted Stop carries the empty category list. -/
theorem claim10_missing_categories_total_witness :
    estimate_visit_duration pA = 45 ∧
      (⟨"A", [], none, 800, 0, 45, 0, 0⟩ : Stop).categories = [] :=
  ⟨claim10_missing_categories_total.1 pA rfl,
   claim10_missing_categories_total.2.1 [pA] 0 0 2000 2 _
     (by with_unfolding_all decide) (by decide) _ (List.mem_singleton.mpr rfl)⟩

end WeekendWish
